import Mathlib

/-!
Verification of the native shell in `src/src-tauri/src/lib.rs` (jellyfin-tauri).

The Rust commands are shallowly embedded as pure Lean functions.  Stateful
commands become explicit state-passing functions that also return the list of
calls they issue to the OS backend (souvlaki media controls) or to the
persisted settings store, so that claims about "no backend call" or "keys
written" can be stated directly.  Machine integers are modelled as `Nat`/`Int`
with explicit two's-complement conversions where the source casts
(`as i32`, `as u32`, `as i64`, `as u64`).
-/

namespace JellyfinTauri

/-! ## JSON values and the settings store (tauri_plugin_store)

The store is a flat map from string keys to JSON scalars.  It is modelled as
an association list; `Store.get`, `Store.set` and `Store.delete` mirror the
plugin's `get`/`set`/`delete` API used by `lib.rs`. -/

/-- JSON scalar values as used by the source (integers, strings, booleans). -/
inductive JsonVal where
  | num (i : Int)
  | str (s : String)
  | bool (b : Bool)
  | null
deriving DecidableEq

/-- The persisted settings store: an association list of key/value entries. -/
abbrev Store := List (String × JsonVal)

/-- Look a key up in the store (first matching entry wins). -/
def Store.get : Store → String → Option JsonVal
  | [], _ => none
  | (k0, v) :: rest, k => if k0 = k then some v else Store.get rest k

/-- Write a key: the new binding replaces any previous binding of the key. -/
def Store.set (st : Store) (k : String) (v : JsonVal) : Store :=
  (k, v) :: List.filter (fun p => p.1 != k) st

/-- Remove every binding of a key. -/
def Store.delete (st : Store) (k : String) : Store :=
  List.filter (fun p => p.1 != k) st

/-- Rust's `str::starts_with` with a string pattern: literal prefix test on
the character sequence. -/
def strStartsWith (s pre : String) : Bool :=
  List.isPrefixOf pre.data s.data

/-- Embedding of `settings_delete_section` (lib.rs lines 226-249): collect the
keys of the entries whose key starts with `"settings." ++ sect ++ "."` and
delete each of them. -/
def settings_delete_section (st : Store) (sect : String) : Store :=
  let pfx := "settings." ++ sect ++ "."
  let keys_to_delete := List.filter (fun k => strStartsWith k pfx) (List.map Prod.fst st)
  keys_to_delete.foldl Store.delete st

/-! ## Window geometry: save and restore -/

/-- The window facts `window_save_geometry` queries: fullscreen and maximized
state, outer position (i32 pixels) and outer size (u32 pixels). -/
structure WindowState where
  is_fullscreen : Bool
  is_maximized : Bool
  pos_x : Int
  pos_y : Int
  size_w : Nat
  size_h : Nat
deriving DecidableEq

/-- Embedding of `window_save_geometry` (lib.rs lines 323-350): skip while
fullscreen; while maximized write only the maximized flag; otherwise write
position, size and `maximized = false`. -/
def window_save_geometry (win : WindowState) (st : Store) : Store :=
  if win.is_fullscreen then st
  else if win.is_maximized then
    Store.set st "state.geometry.maximized" (JsonVal.bool true)
  else
    Store.set
      (Store.set
        (Store.set
          (Store.set
            (Store.set st "state.geometry.x" (JsonVal.num win.pos_x))
            "state.geometry.y" (JsonVal.num win.pos_y))
          "state.geometry.w" (JsonVal.num (win.size_w : Int)))
        "state.geometry.h" (JsonVal.num (win.size_h : Int)))
      "state.geometry.maximized" (JsonVal.bool false)

/-- Truncating cast of an integer to i32, as the source's `as i32`. -/
def toI32 (i : Int) : Int :=
  let m := i % 2 ^ 32
  if m < 2 ^ 31 then m else m - 2 ^ 32

/-- Truncating cast of a natural number to u32, as the source's `as u32`. -/
def toU32 (n : Nat) : Nat := n % 2 ^ 32

/-- Reading a JSON value as an i64 (`serde_json::Value::as_i64`). -/
def JsonVal.asInt : JsonVal → Option Int
  | .num i => some i
  | _ => none

/-- Reading a JSON value as a u64 (`serde_json::Value::as_u64`): negative
numbers read as `none`. -/
def JsonVal.asNat : JsonVal → Option Nat
  | .num i => if 0 ≤ i then some i.toNat else none
  | _ => none

/-- Reading a JSON value as a boolean (`serde_json::Value::as_bool`). -/
def JsonVal.asBool : JsonVal → Option Bool
  | .bool b => some b
  | _ => none

/-- What the startup restore path does to the window: the position/size it
applies (if any) and whether it maximizes. -/
structure RestoreAction where
  applied : Option (Int × Int × Nat × Nat)
  maximize : Bool
deriving DecidableEq

/-- Embedding of the geometry-restore block in `run` (lib.rs lines 1145-1167,
with no `--fullscreen` CLI override): read the four geometry keys, apply
position and size only when all four are present and `w ≥ 200 && h ≥ 150`,
and maximize when the maximized flag is stored as `true`. -/
def restore_geometry (st : Store) : RestoreAction :=
  let x := Option.map toI32 ((Store.get st "state.geometry.x").bind JsonVal.asInt)
  let y := Option.map toI32 ((Store.get st "state.geometry.y").bind JsonVal.asInt)
  let w := Option.map toU32 ((Store.get st "state.geometry.w").bind JsonVal.asNat)
  let h := Option.map toU32 ((Store.get st "state.geometry.h").bind JsonVal.asNat)
  let maximized := ((Store.get st "state.geometry.maximized").bind JsonVal.asBool).getD false
  let applied :=
    match x, y, w, h with
    | some x, some y, some w, some h =>
        if 200 ≤ w ∧ 150 ≤ h then some (x, y, w, h) else none
    | _, _, _, _ => none
  { applied := applied, maximize := maximized }

/-- Concrete store used to exercise `settings_delete_section`. -/
def demoSettingsStore : Store :=
  [("settings.a.k", JsonVal.str "gone"),
   ("settings.ab.k", JsonVal.str "keep"),
   ("state.geometry.w", JsonVal.num 800)]

/-- Concrete store holding a valid persisted geometry. -/
def demoGeomStore : Store :=
  [("state.geometry.x", JsonVal.num 10),
   ("state.geometry.y", JsonVal.num 20),
   ("state.geometry.w", JsonVal.num 800),
   ("state.geometry.h", JsonVal.num 600)]

/-! ## OS media controls (SMTC / MPRIS bridge)

`MediaControlsState` mirrors the managed Rust struct of the same name:
`controls` is `some ()` when `souvlaki::MediaControls::new` succeeded and
`none` when it failed (degraded mode).  Each notify command returns the
updated state together with the list of souvlaki calls it performed. -/

/-- Playback state pushed to souvlaki (`souvlaki::MediaPlayback`). -/
inductive MediaPlayback where
  | Playing (progress : Option Nat)
  | Paused (progress : Option Nat)
  | Stopped
deriving DecidableEq

/-- Metadata bundle pushed to souvlaki (`souvlaki::MediaMetadata`), durations
in milliseconds. -/
structure MediaMetadata where
  title : Option String
  artist : Option String
  album : Option String
  cover_url : Option String
  duration_ms : Option Nat
deriving DecidableEq

/-- A call issued to the souvlaki backend. -/
inductive BackendCall where
  | set_playback (p : MediaPlayback)
  | set_metadata (m : MediaMetadata)
deriving DecidableEq

/-- The managed `MediaControlsState` struct (lib.rs lines 695-704). -/
structure MediaControlsState where
  controls : Option Unit
  is_playing : Bool
  cached_title : String
  cached_artist : Option String
  cached_album : Option String
  cached_cover_url : Option String
  cached_duration_ms : Option Nat
deriving DecidableEq

/-- The state managed at startup (lib.rs lines 1113-1121 and 1126-1134);
`controls` is `some ()` when the backend initialized, `none` otherwise. -/
def initialMediaState (controlsAvailable : Bool) : MediaControlsState :=
  { controls := if controlsAvailable then some () else none
    is_playing := false
    cached_title := ""
    cached_artist := none
    cached_album := none
    cached_cover_url := none
    cached_duration_ms := none }

/-- Embedding of `media_notify_playback_state` (lib.rs lines 706-722). -/
def media_notify_playback_state (s : MediaControlsState) (playing : Bool) :
    MediaControlsState × List BackendCall :=
  let s1 := { s with is_playing := playing }
  let calls : List BackendCall :=
    match s1.controls with
    | some _ =>
        [BackendCall.set_playback
          (if playing then MediaPlayback.Playing none else MediaPlayback.Paused none)]
    | none => []
  (s1, calls)

/-- Embedding of `media_notify_metadata` (lib.rs lines 724-757): every cached
field is overwritten with the incoming argument, then the full bundle is
pushed when the backend is available. -/
def media_notify_metadata (s : MediaControlsState) (title : String)
    (artist album cover_url : Option String) (duration_ms : Option Nat) :
    MediaControlsState × List BackendCall :=
  let s1 := { s with cached_title := title, cached_artist := artist,
                     cached_album := album, cached_cover_url := cover_url,
                     cached_duration_ms := duration_ms }
  let calls : List BackendCall :=
    match s1.controls with
    | some _ =>
        [BackendCall.set_metadata
          { title := some title, artist := artist, album := album,
            cover_url := cover_url, duration_ms := duration_ms }]
    | none => []
  (s1, calls)

/-- Embedding of `media_notify_duration` (lib.rs lines 759-786): overwrite
only the cached duration, then re-push the cached bundle with the new
duration. -/
def media_notify_duration (s : MediaControlsState) (duration_ms : Nat) :
    MediaControlsState × List BackendCall :=
  let s1 := { s with cached_duration_ms := some duration_ms }
  let calls : List BackendCall :=
    match s1.controls with
    | some _ =>
        [BackendCall.set_metadata
          { title := some s1.cached_title, artist := s1.cached_artist,
            album := s1.cached_album, cover_url := s1.cached_cover_url,
            duration_ms := some duration_ms }]
    | none => []
  (s1, calls)

/-- Embedding of `media_notify_stop` (lib.rs lines 835-844): set the playing
flag to false and push `Stopped`; the cached metadata is not touched. -/
def media_notify_stop (s : MediaControlsState) :
    MediaControlsState × List BackendCall :=
  let s1 := { s with is_playing := false }
  let calls : List BackendCall :=
    match s1.controls with
    | some _ => [BackendCall.set_playback MediaPlayback.Stopped]
    | none => []
  (s1, calls)

/-- Embedding of `media_notify_position` (lib.rs lines 846-865). -/
def media_notify_position (s : MediaControlsState) (position_ms : Nat) :
    MediaControlsState × List BackendCall :=
  let calls : List BackendCall :=
    match s.controls with
    | some _ =>
        [BackendCall.set_playback
          (if s.is_playing then MediaPlayback.Playing (some position_ms)
           else MediaPlayback.Paused (some position_ms))]
    | none => []
  (s, calls)

/-- A metadata-affecting update: either a `media_notify_metadata` call or a
`media_notify_duration` call. -/
inductive MediaUpdate where
  | metadata (title : String) (artist album cover_url : Option String)
      (duration_ms : Option Nat)
  | duration (duration_ms : Nat)
deriving DecidableEq

/-- Run one update through the corresponding command. -/
def applyMediaUpdate (s : MediaControlsState) (u : MediaUpdate) : MediaControlsState :=
  match u with
  | .metadata t a al cu d => (media_notify_metadata s t a al cu d).1
  | .duration d => (media_notify_duration s d).1

/-- Run a sequence of updates in call order. -/
def runMediaUpdates (s : MediaControlsState) (us : List MediaUpdate) : MediaControlsState :=
  us.foldl applyMediaUpdate s

/-- The five cached metadata fields of the state. -/
structure CachedMeta where
  title : String
  artist : Option String
  album : Option String
  cover_url : Option String
  duration_ms : Option Nat
deriving DecidableEq

/-- Project the cached metadata fields out of the state. -/
def cacheOf (s : MediaControlsState) : CachedMeta :=
  { title := s.cached_title, artist := s.cached_artist, album := s.cached_album,
    cover_url := s.cached_cover_url, duration_ms := s.cached_duration_ms }

/-- The fold step the code actually implements on the cache: a metadata call
replaces all five fields with exactly its arguments (absent fields overwrite
with `none`), a duration call overwrites only the duration. -/
def overrideStep (c : CachedMeta) (u : MediaUpdate) : CachedMeta :=
  match u with
  | .metadata t a al cu d =>
      { title := t, artist := a, album := al, cover_url := cu, duration_ms := d }
  | .duration d => { c with duration_ms := some d }

/-! ## Cancellable server-connectivity probe -/

/-- The identity document returned by the server (`ServerInfo` in lib.rs,
with serde renames ServerName/Version/Id). -/
structure ServerInfo where
  name : String
  version : String
  id : String
deriving DecidableEq

/-- Rust's `str::trim_end_matches('/')`: drop every trailing slash. -/
def trimEndSlashes (s : String) : String :=
  String.mk (List.reverse (List.dropWhile (fun c => c == '/') (List.reverse s.data)))

/-- The identity URL probed by `check_server_connectivity` (lib.rs line 59). -/
def info_url (url : String) : String :=
  trimEndSlashes url ++ "/System/Info/Public"

/-- Parse the identity document from a JSON object, modelled as a list of
string fields; serde requires the three renamed keys and ignores extras. -/
def parseServerInfo (body : List (String × String)) : Option ServerInfo :=
  match body.lookup "ServerName", body.lookup "Version", body.lookup "Id" with
  | some n, some v, some i => some { name := n, version := v, id := i }
  | _, _, _ => none

/-- Status-code success test (`reqwest::StatusCode::is_success`: 2xx). -/
def statusIsSuccess (status : Nat) : Bool :=
  decide (200 ≤ status ∧ status < 300)

/-- An HTTP response: status code and the parsed JSON-object body fields. -/
structure HttpResponse where
  status : Nat
  body : List (String × String)
deriving DecidableEq

/-- External events a single probe run can observe: whether the client build
succeeds, whether a cancel command lands before the first flag check, the
outcome of the request (`none` is a connection failure), and whether a cancel
command lands while the response is awaited. -/
structure ProbeWorld where
  build_ok : Bool
  cancel_before_send : Bool
  send_result : Option HttpResponse
  cancel_during_await : Bool
deriving DecidableEq

/-- Embedding of `cancel_server_connectivity` (lib.rs lines 91-95): store
`true` into the shared flag, whatever its previous value. -/
def cancel_server_connectivity (_flag : Bool) : Bool := true

/-- Embedding of `check_server_connectivity` (lib.rs lines 37-89).  The
shared cancellation flag is threaded explicitly: the command first stores
`false` (discarding the incoming value `_initFlag`), and concurrent cancel
commands are modelled by the `ProbeWorld` booleans applied at the two points
where the code reads the flag.  Returns the list of URLs requested together
with the result. -/
def check_server_connectivity (_initFlag : Bool) (url : String) (w : ProbeWorld) :
    List String × Except String ServerInfo :=
  let flag0 := false
  if w.build_ok = false then ([], Except.error "Failed to build HTTP client")
  else
    let flag1 := if w.cancel_before_send then cancel_server_connectivity flag0 else flag0
    if flag1 then ([], Except.error "Cancelled")
    else
      let iu := info_url url
      match w.send_result with
      | none => ([iu], Except.error ("Connection failed: " ++ iu))
      | some resp =>
        let flag2 := if w.cancel_during_await then cancel_server_connectivity flag1 else flag1
        if flag2 then ([iu], Except.error "Cancelled")
        else if statusIsSuccess resp.status = false then
          ([iu], Except.error "Server returned non-success status")
        else
          match parseServerInfo resp.body with
          | some si => ([iu], Except.ok si)
          | none => ([iu], Except.error "Invalid server response")

/-- Concrete identity response used by the end-to-end probe example. -/
def demoResponse : HttpResponse :=
  { status := 200
    body := [("ServerName", "Home"), ("Version", "10.9.0"), ("Id", "abc")] }

/-- Concrete probe run that completes successfully without interference. -/
def demoProbeWorld : ProbeWorld :=
  { build_ok := true
    cancel_before_send := false
    send_result := some demoResponse
    cancel_during_await := false }

/-- Concrete probe run cancelled before the request was issued. -/
def cancelledProbeWorld : ProbeWorld :=
  { build_ok := true
    cancel_before_send := true
    send_result := none
    cancel_during_await := false }

/-! ## Native media-control event dispatch -/

/-- Seek direction (`souvlaki::SeekDirection`). -/
inductive SeekDirection where
  | Forward
  | Backward
deriving DecidableEq

/-- Native events delivered to the attached callback
(`souvlaki::MediaControlEvent`); durations and positions in milliseconds,
volume kept as a rational stand-in for the routed f64 payload. -/
inductive MediaControlEvent where
  | Play
  | Pause
  | Toggle
  | Next
  | Previous
  | Stop
  | Seek (dir : SeekDirection)
  | SeekBy (dir : SeekDirection) (duration_ms : Nat)
  | SetPosition (pos_ms : Nat)
  | SetVolume (vol : Rat)
  | OpenUri (uri : String)
  | Raise
  | Quit
deriving DecidableEq

/-- The single outcome the callback produces for one event. -/
inductive DispatchOutcome where
  | emitAction (tag : String)
  | emitSeekBy (signed_ms : Int)
  | emitSetPosition (ms : Nat)
  | emitSetVolume (vol : Rat)
  | raiseWindow
  | exitProcess
  | dropped
deriving DecidableEq

/-- Truncating cast of a natural number to i64 (the source's
`duration.as_millis() as i64`). -/
def toI64 (n : Nat) : Int :=
  let m : Nat := n % 2 ^ 64
  if m < 2 ^ 63 then (m : Int) else (m : Int) - 2 ^ 64

/-- Wrapping i64 negation (release-mode semantics of `-ms`). -/
def i64Neg (i : Int) : Int :=
  if i = -(2 ^ 63) then -(2 ^ 63) else -i

/-- Embedding of the event callback attached in `run` (lib.rs lines
1067-1110).  `emitAction tag` is an emission on the generic
`media-control-event` channel; `emitSeekBy`, `emitSetPosition` and
`emitSetVolume` are emissions on `media-seek-by`, `media-set-position` and
`media-set-volume`; `raiseWindow` is the local unminimize-and-focus;
`exitProcess` is `app_handle.exit(0)`; `dropped` is the wildcard
`_ => return`. -/
def media_event_callback (event : MediaControlEvent) : DispatchOutcome :=
  match event with
  | .Play => .emitAction "play"
  | .Pause => .emitAction "pause"
  | .Toggle => .emitAction "play_pause"
  | .Next => .emitAction "next_track"
  | .Previous => .emitAction "previous_track"
  | .Stop => .emitAction "stop"
  | .Seek .Forward => .emitAction "seek_forward"
  | .Seek .Backward => .emitAction "seek_backward"
  | .SeekBy dir d =>
      let ms := toI64 d
      let signed_ms :=
        match dir with
        | .Forward => ms
        | .Backward => i64Neg ms
      .emitSeekBy signed_ms
  | .SetPosition p => .emitSetPosition (p % 2 ^ 64)
  | .SetVolume v => .emitSetVolume v
  | .Raise => .raiseWindow
  | .Quit => .exitProcess
  | .OpenUri _ => .dropped

/-! ## Geometry save debouncer

The debouncer in `run` (lib.rs lines 1169-1200) keeps a shared timestamp of
the last move/resize event; every event overwrites it and spawns a task that
sleeps 1000 ms and then saves only if at least 900 ms elapsed since the
stored timestamp.  Events are modelled as their times in milliseconds; the
check spawned by the event at time `e` fires at `e + 1000`. -/

/-- The latest event time not exceeding `t` (the shared timestamp as the
check fired at time `t` reads it). -/
def lastEventAt : List Nat → Nat → Option Nat
  | [], _ => none
  | e :: es, t =>
      match lastEventAt es t with
      | some m => if e ≤ t then some (max e m) else some m
      | none => if e ≤ t then some e else none

/-- Whether the check spawned by the event at time `e` commits: the timestamp
must be set and at least 900 ms old when the check fires at `e + 1000`. -/
def checkCommits (events : List Nat) (e : Nat) : Bool :=
  match lastEventAt events (e + 1000) with
  | some last => decide (900 ≤ e + 1000 - last)
  | none => false

/-- The times at which a geometry save is committed, one candidate check per
event. -/
def commitTimes (events : List Nat) : List Nat :=
  List.map (fun e => e + 1000)
    (List.filter (fun e => checkCommits events e) events)

/-- The window states actually persisted: each committing check saves the
window state sampled at its own commit time. -/
def commitSnapshots (winAt : Nat → WindowState) (events : List Nat) :
    List WindowState :=
  List.map winAt (commitTimes events)

/-! ## Helper lemmas about the store -/

/-- Reading a filtered store at a key the filter keeps is unchanged. -/
theorem Store.get_filter_ne (st : Store) (k k' : String) (h : k' ≠ k) :
    Store.get (List.filter (fun p => p.1 != k) st) k' = Store.get st k' := by
  induction st with
  | nil => rfl
  | cons hd tl ih =>
      obtain ⟨k0, v⟩ := hd
      by_cases h1 : k0 = k
      · subst h1
        have hne : ¬(k0 = k') := fun hh => h hh.symm
        simp [List.filter_cons, Store.get, hne, ih]
      · simp [List.filter_cons, bne_iff_ne, h1, Store.get, ih]

/-- Reading the key just written returns the written value. -/
theorem Store.get_set_self (st : Store) (k : String) (v : JsonVal) :
    Store.get (Store.set st k v) k = some v := by
  simp [Store.set, Store.get]

/-- Reading another key after a write is unchanged. -/
theorem Store.get_set_of_ne (st : Store) (k k' : String) (v : JsonVal)
    (h : k' ≠ k) :
    Store.get (Store.set st k v) k' = Store.get st k' := by
  have hne : ¬(k = k') := fun hh => h hh.symm
  simp only [Store.set, Store.get, if_neg hne]
  exact Store.get_filter_ne st k k' h

/-- Reading after a delete: the deleted key is gone, others unchanged. -/
theorem Store.get_delete (st : Store) (k0 k : String) :
    Store.get (Store.delete st k0) k =
      if k = k0 then none else Store.get st k := by
  by_cases h : k = k0
  · subst h
    rw [if_pos rfl]
    induction st with
    | nil => rfl
    | cons hd tl ih =>
        obtain ⟨k1, v⟩ := hd
        by_cases h1 : k1 = k
        · subst h1
          simpa [Store.delete, List.filter_cons] using ih
        · simp only [Store.delete, List.filter_cons, bne_iff_ne, ne_eq, h1,
            not_false_eq_true, ite_true, Store.get, if_neg h1]
          exact ih
  · rw [if_neg h]
    exact Store.get_filter_ne st k0 k h

/-- A key absent from the entry list reads as `none`. -/
theorem Store.get_eq_none_of_not_mem (st : Store) (k : String)
    (h : k ∉ List.map Prod.fst st) :
    Store.get st k = none := by
  induction st with
  | nil => rfl
  | cons hd tl ih =>
      obtain ⟨k0, v⟩ := hd
      simp only [List.map_cons, List.mem_cons, not_or] at h
      have h0 : ¬(k0 = k) := fun hh => h.1 hh.symm
      simp only [Store.get, if_neg h0]
      exact ih h.2

/-- Folding deletes over a key list removes exactly those keys. -/
theorem Store.get_foldl_delete (ks : List String) (st : Store) (k : String) :
    Store.get (ks.foldl Store.delete st) k =
      if k ∈ ks then none else Store.get st k := by
  induction ks generalizing st with
  | nil => simp
  | cons k0 ks ih =>
      simp only [List.foldl_cons, ih, Store.get_delete, List.mem_cons]
      by_cases h1 : k ∈ ks
      · simp [h1]
      · by_cases h2 : k = k0 <;> simp [h1, h2]

/-! ## Helper lemmas about the debouncer -/

/-- A value read from the shared timestamp is one of the events, and is not
later than the read time. -/
theorem lastEventAt_mem (events : List Nat) (t m : Nat)
    (h : lastEventAt events t = some m) : m ∈ events ∧ m ≤ t := by
  induction events generalizing m with
  | nil => exact absurd h Option.noConfusion
  | cons e es ih =>
      rw [lastEventAt] at h
      split at h
      next m0 hl =>
        split at h
        next he =>
          obtain rfl := Option.some.inj h
          rcases Nat.le_total e m0 with hc | hc
          · rw [Nat.max_eq_right hc]
            exact ⟨List.mem_cons_of_mem e (ih m0 hl).1, (ih m0 hl).2⟩
          · rw [Nat.max_eq_left hc]
            exact ⟨List.mem_cons_self e es, he⟩
        next =>
          obtain rfl := Option.some.inj h
          exact ⟨List.mem_cons_of_mem e (ih _ hl).1, (ih _ hl).2⟩
      next hl =>
        split at h
        next he =>
          obtain rfl := Option.some.inj h
          exact ⟨List.mem_cons_self e es, he⟩
        next =>
          exact absurd h Option.noConfusion

/-- When every event is at most `M`, `M` is an event, and `M ≤ t`, the
timestamp read at time `t` is exactly `M`. -/
theorem lastEventAt_eq_max (events : List Nat) (t M : Nat)
    (hmem : M ∈ events) (hmax : ∀ x ∈ events, x ≤ M) (ht : M ≤ t) :
    lastEventAt events t = some M := by
  induction events with
  | nil => cases hmem
  | cons e es ih =>
      have he : e ≤ t :=
        le_trans (hmax e (List.mem_cons_self e es)) ht
      rw [lastEventAt]
      cases hl : lastEventAt es t with
      | some m0 =>
          have hm0 : m0 ∈ es := (lastEventAt_mem es t m0 hl).1
          have hm0M : m0 ≤ M := hmax m0 (List.mem_cons_of_mem e hm0)
          show (if e ≤ t then some (max e m0) else some m0) = some M
          rw [if_pos he]
          rcases List.mem_cons.mp hmem with rfl | hMes
          · rw [Nat.max_eq_left hm0M]
          · have h2 := ih hMes (fun x hx => hmax x (List.mem_cons_of_mem e hx))
            rw [hl] at h2
            obtain rfl := Option.some.inj h2
            rw [Nat.max_eq_right (hmax e (List.mem_cons_self e es))]
      | none =>
          show (if e ≤ t then some e else none) = some M
          rw [if_pos he]
          rcases List.mem_cons.mp hmem with rfl | hMes
          · rfl
          · have h2 := ih hMes (fun x hx => hmax x (List.mem_cons_of_mem e hx))
            rw [hl] at h2
            exact absurd h2 Option.noConfusion

/-! ## Helper lemmas about the media commands -/

/-- One update step acts on the cache exactly as `overrideStep`. -/
theorem cacheOf_applyMediaUpdate (s : MediaControlsState) (u : MediaUpdate) :
    cacheOf (applyMediaUpdate s u) = overrideStep (cacheOf s) u := by
  cases u <;> rfl

/-! ## Claim C1 -/

/-- C1 counterexample: starting from the initial state,
`media_notify_duration 5000` followed by `media_notify_metadata` with title
`"T"` and `duration_ms` absent leaves the cached duration `none`, not
`some 5000` as the claimed keep-absent-fields fold would require. -/
theorem C1_counterexample :
    (runMediaUpdates (initialMediaState true)
       [MediaUpdate.duration 5000,
        MediaUpdate.metadata "T" none none none none]).cached_duration_ms = none ∧
    (runMediaUpdates (initialMediaState true)
       [MediaUpdate.duration 5000,
        MediaUpdate.metadata "T" none none none none]).cached_duration_ms
      ≠ some 5000 :=
  ⟨rfl, by decide⟩

/-- C1 (amended): for every sequence of metadata/duration updates the final
cached metadata is the fold of `overrideStep` in call order, where a
metadata call replaces all five fields with exactly its arguments (absent
optional fields overwrite with `none`) and a duration call overwrites only
the duration; in particular a duration update followed by a metadata update
with `duration_ms` absent leaves the cached duration `none`. -/
theorem C1_cache_override_fold :
    (∀ (s : MediaControlsState) (us : List MediaUpdate),
        cacheOf (runMediaUpdates s us) = us.foldl overrideStep (cacheOf s)) ∧
    (∀ (s : MediaControlsState) (d : Nat) (t : String),
        (runMediaUpdates s
           [MediaUpdate.duration d,
            MediaUpdate.metadata t none none none none]).cached_duration_ms
          = none) := by
  constructor
  · intro s us
    induction us generalizing s with
    | nil => rfl
    | cons u us ih =>
        calc cacheOf (runMediaUpdates s (u :: us))
            = cacheOf (runMediaUpdates (applyMediaUpdate s u) us) := rfl
          _ = us.foldl overrideStep (cacheOf (applyMediaUpdate s u)) :=
              ih (applyMediaUpdate s u)
          _ = (u :: us).foldl overrideStep (cacheOf s) := by
              rw [List.foldl_cons, cacheOf_applyMediaUpdate]
  · intro s d t
    rfl

/-! ## Claim C3 -/

/-- C3 counterexample: `media_notify_stop` leaves a previously cached title
`"T"` in place instead of clearing it to the empty default. -/
theorem C3_counterexample :
    ((media_notify_stop
        { controls := some (), is_playing := true, cached_title := "T",
          cached_artist := some "A", cached_album := none,
          cached_cover_url := none, cached_duration_ms := some 5000 }).1).cached_title
      = "T" ∧ "T" ≠ "" :=
  ⟨rfl, by decide⟩

/-- C3 (amended): for every prior state, `media_notify_stop` only sets the
playing flag to false and, when the backend is available, pushes the
`Stopped` playback state; the cached metadata fields are left unchanged, not
cleared. -/
theorem C3_stop_preserves_cache (s : MediaControlsState) :
    (media_notify_stop s).1 = { s with is_playing := false } ∧
    cacheOf (media_notify_stop s).1 = cacheOf s ∧
    (media_notify_stop s).2 =
      (match s.controls with
       | some _ => [BackendCall.set_playback MediaPlayback.Stopped]
       | none => []) :=
  ⟨rfl, rfl, rfl⟩

/-! ## Claim C8 -/

/-- C8: when the media-controls backend failed to initialize (the managed
slot holds `none`), every media mutation command still returns (they are
total functions, no error value exists) and performs no backend call. -/
theorem C8_degraded_noop (s : MediaControlsState) (h : s.controls = none) :
    (∀ playing, (media_notify_playback_state s playing).2 = []) ∧
    (∀ (t : String) (a al cu : Option String) (d : Option Nat),
        (media_notify_metadata s t a al cu d).2 = []) ∧
    (∀ d, (media_notify_duration s d).2 = []) ∧
    (media_notify_stop s).2 = [] ∧
    (∀ p, (media_notify_position s p).2 = []) := by
  refine ⟨?_, ?_, ?_, ?_, ?_⟩ <;>
    intros <;>
    simp [media_notify_playback_state, media_notify_metadata,
      media_notify_duration, media_notify_stop, media_notify_position, h]

/-- C8 witness: the degraded initial state performs no backend call on stop. -/
theorem C8_degraded_noop_witness :
    (media_notify_stop (initialMediaState false)).2 = [] :=
  (C8_degraded_noop (initialMediaState false) rfl).2.2.2.1

/-! ## Claim C9 -/

/-- C9: whenever `window_save_geometry` runs while the window is maximized
and not fullscreen, it writes only the `state.geometry.maximized` flag (set
to true) and leaves every other key — in particular the persisted
`state.geometry.x`, `y`, `w`, `h` — unchanged; repeated saves while still
maximized keep the flag true and never touch the other keys. -/
theorem C9_maximized_save (win : WindowState)
    (hmax : win.is_maximized = true) (hfs : win.is_fullscreen = false) :
    (∀ st : Store,
       Store.get (window_save_geometry win st) "state.geometry.maximized"
         = some (JsonVal.bool true) ∧
       ∀ k, k ≠ "state.geometry.maximized" →
         Store.get (window_save_geometry win st) k = Store.get st k) ∧
    (∀ st : Store,
       Store.get (window_save_geometry win (window_save_geometry win st))
         "state.geometry.maximized" = some (JsonVal.bool true) ∧
       ∀ k, k ≠ "state.geometry.maximized" →
         Store.get (window_save_geometry win (window_save_geometry win st)) k
           = Store.get st k) := by
  have hsave : ∀ st : Store,
      window_save_geometry win st
        = Store.set st "state.geometry.maximized" (JsonVal.bool true) := by
    intro st
    simp [window_save_geometry, hfs, hmax]
  constructor
  · intro st
    rw [hsave]
    exact ⟨Store.get_set_self _ _ _, fun k hk => Store.get_set_of_ne _ _ _ _ hk⟩
  · intro st
    rw [hsave, hsave]
    refine ⟨Store.get_set_self _ _ _, fun k hk => ?_⟩
    rw [Store.get_set_of_ne _ _ _ _ hk, Store.get_set_of_ne _ _ _ _ hk]

/-- C9 witness: a concrete maximized save writes the flag. -/
theorem C9_maximized_save_witness :
    Store.get
      (window_save_geometry
        { is_fullscreen := false, is_maximized := true,
          pos_x := 0, pos_y := 0, size_w := 800, size_h := 600 } [])
      "state.geometry.maximized" = some (JsonVal.bool true) :=
  ((C9_maximized_save _ rfl rfl).1 []).1

/-! ## Claim C10 -/

/-- C10: `settings_delete_section` deletes exactly the store keys with
prefix `"settings." ++ sect ++ "."` (trailing dot included) and leaves every
other key unchanged; in particular the key of section `"ab"` and a
`state.geometry` key survive deleting section `"a"`. -/
theorem C10_delete_section_exact :
    (∀ (st : Store) (sect k : String),
       Store.get (settings_delete_section st sect) k =
         if strStartsWith k ("settings." ++ sect ++ ".") = true then none
         else Store.get st k) ∧
    Store.get (settings_delete_section demoSettingsStore "a") "settings.ab.k"
      = some (JsonVal.str "keep") ∧
    Store.get (settings_delete_section demoSettingsStore "a") "state.geometry.w"
      = some (JsonVal.num 800) ∧
    Store.get (settings_delete_section demoSettingsStore "a") "settings.a.k"
      = none := by
  refine ⟨?_, by decide, by decide, by decide⟩
  intro st sect k
  simp only [settings_delete_section]
  rw [Store.get_foldl_delete]
  by_cases hs : strStartsWith k ("settings." ++ sect ++ ".") = true
  · rw [if_pos hs]
    by_cases hm : k ∈ List.map Prod.fst st
    · have hmem : k ∈ List.filter
          (fun k2 => strStartsWith k2 ("settings." ++ sect ++ "."))
          (List.map Prod.fst st) :=
        List.mem_filter.mpr ⟨hm, hs⟩
      rw [if_pos hmem]
    · have hnm : k ∉ List.filter
          (fun k2 => strStartsWith k2 ("settings." ++ sect ++ "."))
          (List.map Prod.fst st) :=
        fun hmem2 => hm (List.mem_filter.mp hmem2).1
      rw [if_neg hnm, Store.get_eq_none_of_not_mem st k hm]
  · have hnm : k ∉ List.filter
        (fun k2 => strStartsWith k2 ("settings." ++ sect ++ "."))
        (List.map Prod.fst st) :=
      fun hmem2 => hs (List.mem_filter.mp hmem2).2
    rw [if_neg hs, if_neg hnm]

/-! ## Claim C2 -/

/-- C2 counterexample: `window_save_geometry` persists a width of 199 (below
the claimed 200 minimum) — the save path performs no threshold check. -/
theorem C2_counterexample :
    Store.get
      (window_save_geometry
        { is_fullscreen := false, is_maximized := false,
          pos_x := 10, pos_y := 20, size_w := 199, size_h := 300 } [])
      "state.geometry.w" = some (JsonVal.num 199) ∧ (199 : Nat) < 200 :=
  ⟨by decide, by decide⟩

/-- C2 (amended): the 200×150 minimum is enforced only on the restore path:
a stored geometry is applied at startup exactly when all four keys are
present and `w ≥ 200` and `h ≥ 150` (so width 199 is rejected and width 200
accepted on restore), while the save path persists whatever width/height the
window reports, with no threshold check. -/
theorem C2_threshold_restore_only :
    (∀ (st : Store) (x y : Int) (w h : Nat),
       Store.get st "state.geometry.x" = some (JsonVal.num x) →
       Store.get st "state.geometry.y" = some (JsonVal.num y) →
       Store.get st "state.geometry.w" = some (JsonVal.num (w : Int)) →
       Store.get st "state.geometry.h" = some (JsonVal.num (h : Int)) →
       -(2 : Int) ^ 31 ≤ x → x < 2 ^ 31 → -(2 : Int) ^ 31 ≤ y → y < 2 ^ 31 →
       w < 2 ^ 32 → h < 2 ^ 32 →
       ((restore_geometry st).applied = some (x, y, w, h) ↔
         200 ≤ w ∧ 150 ≤ h)) ∧
    (∀ (win : WindowState) (st : Store),
       win.is_fullscreen = false → win.is_maximized = false →
       Store.get (window_save_geometry win st) "state.geometry.w"
           = some (JsonVal.num (win.size_w : Int)) ∧
       Store.get (window_save_geometry win st) "state.geometry.h"
           = some (JsonVal.num (win.size_h : Int))) := by
  constructor
  · intro st x y w h hx hy hw hh hx1 hx2 hy1 hy2 hwlt hhlt
    have htx : toI32 x = x := by simp only [toI32]; split <;> omega
    have hty : toI32 y = y := by simp only [toI32]; split <;> omega
    have haw : JsonVal.asNat (JsonVal.num (w : Int)) = some w := by
      simp [JsonVal.asNat]
    have hah : JsonVal.asNat (JsonVal.num (h : Int)) = some h := by
      simp [JsonVal.asNat]
    simp only [restore_geometry, hx, hy, hw, hh, Option.some_bind,
      JsonVal.asInt, haw, hah, Option.map_some', htx, hty, toU32,
      Nat.mod_eq_of_lt hwlt, Nat.mod_eq_of_lt hhlt]
    by_cases hcond : 200 ≤ w ∧ 150 ≤ h
    · simp [hcond]
    · simp [hcond]
  · intro win st hfs hmax
    simp only [window_save_geometry, hfs, hmax, Bool.false_eq_true, if_false]
    constructor
    · rw [Store.get_set_of_ne _ "state.geometry.maximized" "state.geometry.w" _
          (by decide),
        Store.get_set_of_ne _ "state.geometry.h" "state.geometry.w" _ (by decide),
        Store.get_set_self]
    · rw [Store.get_set_of_ne _ "state.geometry.maximized" "state.geometry.h" _
          (by decide),
        Store.get_set_self]

/-- C2 witness: a valid stored 800×600 geometry is restored. -/
theorem C2_threshold_restore_only_witness :
    (restore_geometry demoGeomStore).applied = some (10, 20, 800, 600) :=
  (C2_threshold_restore_only.1 demoGeomStore 10 20 800 600 rfl rfl rfl rfl
    (by decide) (by decide) (by decide) (by decide) (by decide) (by decide)).mpr
    (by decide)

/-! ## Claim C5 -/

/-- C5: `check_server_connectivity` resets the shared flag at its start (its
result is independent of the incoming flag value), and a cancel landing
before the pre-request check, or between the request and the post-response
check, makes the probe return the `Cancelled` failure without completing. -/
theorem C5_cancellation (url : String) (w : ProbeWorld) :
    (∀ f1 f2 : Bool,
        check_server_connectivity f1 url w = check_server_connectivity f2 url w) ∧
    (w.build_ok = true → w.cancel_before_send = true →
        (check_server_connectivity false url w).2 = Except.error "Cancelled" ∧
        (check_server_connectivity false url w).1 = []) ∧
    (∀ resp, w.build_ok = true → w.cancel_before_send = false →
        w.send_result = some resp → w.cancel_during_await = true →
        (check_server_connectivity false url w).2 = Except.error "Cancelled") := by
  refine ⟨fun f1 f2 => rfl, ?_, ?_⟩
  · intro hb hc
    constructor <;>
      simp [check_server_connectivity, hb, hc, cancel_server_connectivity]
  · intro resp hb hc hs hca
    simp [check_server_connectivity, hb, hc, hs, hca, cancel_server_connectivity]

/-- C5 witness: a concrete probe cancelled before the request returns
`Cancelled` and issues no request. -/
theorem C5_cancellation_witness :
    (check_server_connectivity false "https://host" cancelledProbeWorld).2
      = Except.error "Cancelled" :=
  ((C5_cancellation "https://host" cancelledProbeWorld).2.1 rfl rfl).1

/-! ## Claim C6 -/

/-- C6: the probe requests the endpoint with trailing slashes trimmed plus
`/System/Info/Public` (so `https://host/` probes
`https://host/System/Info/Public`), and on a 200 response whose body holds
ServerName `Home`, Version `10.9.0`, Id `abc` it returns success carrying
exactly those three fields. -/
theorem C6_identity_fetch :
    info_url "https://host/" = "https://host/System/Info/Public" ∧
    (∀ (f : Bool) (url : String) (w : ProbeWorld),
        w.build_ok = true → w.cancel_before_send = false →
        (check_server_connectivity f url w).1 = [info_url url]) ∧
    (∀ (f : Bool) (url : String),
        (check_server_connectivity f url demoProbeWorld).2
          = Except.ok { name := "Home", version := "10.9.0", id := "abc" }) := by
  refine ⟨by decide, ?_, fun f url => rfl⟩
  intro f url w hb hc
  cases hsr : w.send_result with
  | none => simp [check_server_connectivity, hb, hc, hsr]
  | some resp =>
      cases hcda : w.cancel_during_await <;>
        cases hss : statusIsSuccess resp.status <;>
        cases hp : parseServerInfo resp.body <;>
        simp [check_server_connectivity, hb, hc, hsr, hcda, hss, hp,
          cancel_server_connectivity]

/-- C6 witness: the concrete end-to-end example with endpoint
`https://host/`. -/
theorem C6_identity_fetch_witness :
    (check_server_connectivity false "https://host/" demoProbeWorld).1
      = ["https://host/System/Info/Public"] := by
  rw [C6_identity_fetch.2.1 false "https://host/" demoProbeWorld rfl rfl,
    C6_identity_fetch.1]

/-! ## Claim C4 -/

/-- C4 counterexample: move events at t = 0 ms and t = 50 ms followed by
idleness are a single burst and quiet period, yet both delayed checks commit
(at t = 1000 and t = 1050), refuting the at-most-one-write guarantee. -/
theorem C4_counterexample :
    (commitTimes [0, 50]).length = 2 ∧ ¬(commitTimes [0, 50]).length ≤ 1 :=
  ⟨by decide, by decide⟩

/-- C4 (amended): each event schedules a check 1000 ms later that commits
exactly when at least 900 ms elapsed since the most recent event, so within
a burst whose events all lie within 1000 ms of the final event `M`, the
committing checks are exactly those of events within 100 ms of `M` — more
than one commit per quiet period is possible; the spec's example burst at
t = 0, 200, 400 yields exactly one commit, at t = 1400, persisting the
window state sampled at that commit time. -/
theorem C4_burst_commits (events : List Nat) (M : Nat)
    (hmem : M ∈ events) (hmax : ∀ x ∈ events, x ≤ M)
    (hburst : ∀ x ∈ events, M ≤ x + 1000) :
    (∀ e ∈ events, (checkCommits events e = true ↔ M ≤ e + 100)) ∧
    commitTimes [0, 200, 400] = [1400] ∧
    (∀ winAt : Nat → WindowState,
        commitSnapshots winAt [0, 200, 400] = [winAt 1400]) := by
  refine ⟨?_, by decide, ?_⟩
  · intro e he
    have hM : M ≤ e + 1000 := hburst e he
    rw [checkCommits, lastEventAt_eq_max events (e + 1000) M hmem hmax hM]
    show decide (900 ≤ e + 1000 - M) = true ↔ M ≤ e + 100
    simp only [decide_eq_true_eq]
    omega
  · intro winAt
    have hct : commitTimes [0, 200, 400] = [1400] := by decide
    rw [commitSnapshots, hct]
    rfl

/-- C4 witness: the example burst commits once. -/
theorem C4_burst_commits_witness :
    commitTimes [0, 200, 400] = [1400] :=
  (C4_burst_commits [0, 200, 400] 400 (by decide) (by decide) (by decide)).2.1

/-! ## Claim C7 -/

/-- C7 counterexample: `Quit` and `Raise` lie outside the claim's closed set
of forwarded events but are not dropped silently — the callback exits the
process for `Quit` and raises the window for `Raise`. -/
theorem C7_counterexample :
    media_event_callback MediaControlEvent.Quit = DispatchOutcome.exitProcess ∧
    DispatchOutcome.exitProcess ≠ DispatchOutcome.dropped ∧
    media_event_callback MediaControlEvent.Raise = DispatchOutcome.raiseWindow ∧
    DispatchOutcome.raiseWindow ≠ DispatchOutcome.dropped :=
  ⟨rfl, by decide, rfl, by decide⟩

/-- C7 (amended): the callback dispatches every event to exactly one
outcome: payload-less events are forwarded as an opaque action tag on the
generic channel; payload events are forwarded as distinct typed events
(SeekBy as signed milliseconds within the i64 range, negative for backward;
SetPosition as unsigned milliseconds; SetVolume with its value) and never as
the generic tag; `Raise` is intercepted locally (unminimize and focus) and
`Quit` exits the process, neither emitting; any event outside this closed
set (such as `OpenUri`) is dropped silently with no emission. -/
theorem C7_event_dispatch :
    (∀ d : Nat, d < 2 ^ 63 →
        media_event_callback (MediaControlEvent.SeekBy SeekDirection.Forward d)
            = DispatchOutcome.emitSeekBy (d : Int) ∧
        media_event_callback (MediaControlEvent.SeekBy SeekDirection.Backward d)
            = DispatchOutcome.emitSeekBy (-(d : Int))) ∧
    (∀ p : Nat, p < 2 ^ 64 →
        media_event_callback (MediaControlEvent.SetPosition p)
          = DispatchOutcome.emitSetPosition p) ∧
    (media_event_callback MediaControlEvent.Play
        = DispatchOutcome.emitAction "play" ∧
     media_event_callback MediaControlEvent.Pause
        = DispatchOutcome.emitAction "pause" ∧
     media_event_callback MediaControlEvent.Toggle
        = DispatchOutcome.emitAction "play_pause" ∧
     media_event_callback MediaControlEvent.Next
        = DispatchOutcome.emitAction "next_track" ∧
     media_event_callback MediaControlEvent.Previous
        = DispatchOutcome.emitAction "previous_track" ∧
     media_event_callback MediaControlEvent.Stop
        = DispatchOutcome.emitAction "stop" ∧
     media_event_callback (MediaControlEvent.Seek SeekDirection.Forward)
        = DispatchOutcome.emitAction "seek_forward" ∧
     media_event_callback (MediaControlEvent.Seek SeekDirection.Backward)
        = DispatchOutcome.emitAction "seek_backward") ∧
    (∀ v : Rat, media_event_callback (MediaControlEvent.SetVolume v)
        = DispatchOutcome.emitSetVolume v) ∧
    (∀ (dir : SeekDirection) (d : Nat) (tag : String),
        media_event_callback (MediaControlEvent.SeekBy dir d)
          ≠ DispatchOutcome.emitAction tag) ∧
    (∀ (p : Nat) (tag : String),
        media_event_callback (MediaControlEvent.SetPosition p)
          ≠ DispatchOutcome.emitAction tag) ∧
    (∀ (v : Rat) (tag : String),
        media_event_callback (MediaControlEvent.SetVolume v)
          ≠ DispatchOutcome.emitAction tag) ∧
    media_event_callback MediaControlEvent.Raise = DispatchOutcome.raiseWindow ∧
    media_event_callback MediaControlEvent.Quit = DispatchOutcome.exitProcess ∧
    (∀ uri : String, media_event_callback (MediaControlEvent.OpenUri uri)
        = DispatchOutcome.dropped) := by
  refine ⟨?_, ?_, ⟨rfl, rfl, rfl, rfl, rfl, rfl, rfl, rfl⟩, fun v => rfl,
    ?_, ?_, ?_, rfl, rfl, fun u => rfl⟩
  · intro d hd
    have hmod : d % 2 ^ 64 = d := Nat.mod_eq_of_lt (by omega)
    constructor
    · simp only [media_event_callback, toI64, hmod]
      rw [if_pos hd]
    · simp only [media_event_callback, toI64, hmod]
      rw [if_pos hd, i64Neg, if_neg (by omega)]
  · intro p hp
    simp only [media_event_callback, Nat.mod_eq_of_lt hp]
  · intro dir d tag
    cases dir <;> simp [media_event_callback]
  · intro p tag
    simp [media_event_callback]
  · intro v tag
    simp [media_event_callback]

/-- C7 witness: concrete payload routings. -/
theorem C7_event_dispatch_witness :
    media_event_callback (MediaControlEvent.SeekBy SeekDirection.Backward 5000)
        = DispatchOutcome.emitSeekBy (-((5000 : Nat) : Int)) ∧
    media_event_callback (MediaControlEvent.SetPosition 123)
        = DispatchOutcome.emitSetPosition 123 :=
  ⟨(C7_event_dispatch.1 5000 (by decide)).2,
   C7_event_dispatch.2.1 123 (by decide)⟩

end JellyfinTauri
